import Mathlib

/-!
Shallow embedding of the verification-code subsystem of `src/server.js`
(2FA server: send-code, verify-code, verify-token, admin-send-code).

Conventions of the embedding:
- Wall-clock instants (`Date.now()`) are integers counting milliseconds.
- The JS `Map` named `verifyStore` is an insertion-ordered association
  list with unique keys; `Map.set`, `Map.get`, `Map.delete` become
  `mapSet`, `List.lookup`, `mapDelete`.
- Randomness (`genCode`) and mail delivery (`mailer.sendMail`) are
  external effects: the generated code and the delivery outcome are
  passed as explicit parameters (`fresh : String`, `deliveryOk : Bool`).
- Configuration values `RESEND_COOLDOWN` and `CODE_TTL` (seconds) are
  parameters `cooldown ttl : Int`.
- String helpers (trim, toLowerCase, split) are implemented structurally
  over `List Char` so that every definition evaluates by kernel
  reduction.
-/

/-- JS string-or-default: `s || d` on strings, where only `""` is falsy. -/
def jsOr (s d : String) : String := if s = "" then d else s

/-- The whitespace class of the JS regex `\s` (and of `String.trim`),
restricted to the ASCII whitespace characters. -/
def jsSpace (c : Char) : Bool :=
  c == ' ' || c == '\t' || c == '\n' || c == '\r' || c == '\x0b' || c == '\x0c'

/-- JS `String.prototype.trim`: drop leading and trailing whitespace. -/
def jsTrim (s : String) : String :=
  ⟨((s.data.dropWhile jsSpace).reverse.dropWhile jsSpace).reverse⟩

/-- JS `String.prototype.toLowerCase` on ASCII data. -/
def jsLower (s : String) : String :=
  ⟨s.data.map Char.toLower⟩

/-- Identifier normalization of the server:
`String(x || "").trim().toLowerCase()`. -/
def jsNormalize (s : String) : String := jsLower (jsTrim s)

/-- JS `String.prototype.split` with a one-character separator. -/
def splitOnChar (sep : Char) : List Char → List (List Char)
  | [] => [[]]
  | c :: rest =>
    if c = sep then
      [] :: splitOnChar sep rest
    else
      match splitOnChar sep rest with
      | [] => [[c]]
      | h :: t => (c :: h) :: t

/-- The email test of `src/server.js` line 62: the regex
`^[^\s@]+@[^\s@]+\.[^\s@]+$`.  A string matches exactly when it splits as
`a@d` with `a` nonempty and free of whitespace and `@`, and `d` free of
whitespace and `@` and containing a dot that is neither its first nor its
last character (so `d = b.c` with `b`, `c` nonempty). -/
def validEmail (s : String) : Bool :=
  match splitOnChar '@' s.data with
  | [a, d] =>
      (!a.isEmpty) && a.all (fun c => !(jsSpace c))
        && d.all (fun c => !(jsSpace c))
        && ((d.drop 1).dropLast.contains '.')
  | _ => false

/-- One pending verification challenge, the value type of `verifyStore`
(`src/server.js` lines 76-82). -/
structure Challenge where
  code : String
  role : String
  expiresAt : Int
  lastSentAt : Int
  attempts : Nat
deriving DecidableEq

/-- The `verifyStore` JS `Map`, as an insertion-ordered association list. -/
abbrev Store : Type := List (String × Challenge)

/-- `Map.set`: replace the value at an existing key in place, else append. -/
def mapSet (k : String) (v : Challenge) : Store → Store
  | [] => [(k, v)]
  | (k', v') :: rest => if k' == k then (k, v) :: rest else (k', v') :: mapSet k v rest

/-- `Map.delete`: remove the entry with the given key.  Since a JS `Map`
holds at most one entry per key, removing every matching entry is the
same operation. -/
def mapDelete (k : String) (st : Store) : Store :=
  st.filter (fun p => !(p.1 == k))

/-- The keys of the store, in order. -/
def storeKeys (st : Store) : List String := st.map Prod.fst

/-- Well-formedness of the store: each identifier occurs at most once.
Every JS `Map` satisfies this by construction. -/
def storeWF (st : Store) : Prop := (storeKeys st).Nodup

/-- `Math.ceil(a / b)` for integer `a` and positive integer `b`; the
division is the floor division of `Int`. -/
def ceilDiv (a b : Int) : Int := -((-a) / b)

/-- Outcome of a send-code request (`/auth/send-code`,
`/auth/admin-send-code`): the distinct response bodies. -/
inductive SendResult where
  /-- 400 "Valid email required" -/
  | invalidEmail
  /-- 429 "Please wait {wait}s before requesting again" -/
  | throttled (wait : Int)
  /-- 403 "Access denied..." (admin variant only) -/
  | forbidden
  /-- 200 "Code sent" -/
  | sent
  /-- 500 "Failed to send code" (sendMail rejected) -/
  | deliveryError
deriving DecidableEq

/-- Modelled from the spec: the jsonwebtoken library is not part of this
repository, so a Token is its abstract payload `{identifier, role, iat}`
together with the signing key used, and `exp = iat + 24h`. -/
structure Token where
  email : String
  role : String
  iat : Int
  key : String
deriving DecidableEq

/-- `jwt.sign({email, role, iat}, key, {expiresIn: "24h"})`
(`src/server.js` lines 128-136).  `iat` is in seconds. -/
def mint (email role : String) (iat : Int) (key : String) : Token :=
  ⟨email, role, iat, key⟩

/-- Modelled from the spec: `jwt.verify(token, key)` of the jsonwebtoken
library succeeds exactly when the signature key matches and the current
time (seconds) is before `exp = iat + 86400`; it returns the embedded
claims. -/
def tokenValidate (t : Token) (key : String) (nowSec : Int) : Option (String × String) :=
  if t.key = key ∧ nowSec < t.iat + 86400 then some (t.email, t.role) else none

/-- Outcome of a verify-code request (`/auth/verify-code`): the distinct
response bodies. -/
inductive VerifyResult where
  /-- 400 "No code requested for this email" -/
  | noPending
  /-- 400 "Code expired. Request a new one." -/
  | expired
  /-- 429 "Too many attempts. Request a new code." -/
  | tooMany
  /-- 400 "Invalid code" -/
  | invalidCode
  /-- 200 with `{token, role, email}` -/
  | success (token : Token) (role : String) (email : String)
deriving DecidableEq

/-- `POST /auth/verify-code` (`src/server.js` lines 104-147).  Returns the
response outcome together with the store after the request.  `now` is
`Date.now()` in milliseconds; `secret` is `JWT_SECRET`. -/
def verifyCode (idRaw codeRaw : String) (st : Store) (now : Int) (secret : String) :
    VerifyResult × Store :=
  match List.lookup (jsNormalize idRaw) st with
  | none => (.noPending, st)
  | some entry =>
    if entry.expiresAt < now then
      (.expired, mapDelete (jsNormalize idRaw) st)
    else if 6 < entry.attempts + 1 then
      (.tooMany, mapDelete (jsNormalize idRaw) st)
    else if entry.code ≠ jsTrim codeRaw then
      (.invalidCode, mapSet (jsNormalize idRaw) { entry with attempts := entry.attempts + 1 } st)
    else
      (.success (mint (jsNormalize idRaw) (jsOr entry.role "user") (Int.ediv now 1000) secret)
          (jsOr entry.role "user") (jsNormalize idRaw),
        mapDelete (jsNormalize idRaw) st)

/-- The tail of both send-code flows after all checks passed: store the
fresh challenge, then attempt delivery (`src/server.js` lines 75-100).
The store write happens before `sendMail` is awaited, so a delivery
failure surfaces as a 500 while the new challenge stays in the store. -/
def commitAndSend (identifier role : String) (st : Store) (now : Int) (fresh : String)
    (deliveryOk : Bool) (ttl : Int) : SendResult × Store :=
  let st' := mapSet identifier ⟨fresh, role, now + ttl * 1000, now, 0⟩ st
  if deliveryOk then (.sent, st') else (.deliveryError, st')

/-- Cooldown check followed by commit-and-send (`src/server.js`
lines 68-100): shared by `/auth/send-code` and `/auth/admin-send-code`. -/
def issueAfterChecks (identifier role : String) (st : Store) (now : Int) (fresh : String)
    (deliveryOk : Bool) (cooldown ttl : Int) : SendResult × Store :=
  match List.lookup identifier st with
  | some prev =>
    if now - prev.lastSentAt < cooldown * 1000 then
      (.throttled (ceilDiv (cooldown * 1000 - (now - prev.lastSentAt)) 1000), st)
    else
      commitAndSend identifier role st now fresh deliveryOk ttl
  | none => commitAndSend identifier role st now fresh deliveryOk ttl

/-- `POST /auth/send-code` (`src/server.js` lines 57-101). -/
def sendCode (idRaw roleRaw : String) (st : Store) (now : Int) (fresh : String)
    (deliveryOk : Bool) (cooldown ttl : Int) : SendResult × Store :=
  if jsNormalize idRaw = "" ∨ validEmail (jsNormalize idRaw) = false then
    (.invalidEmail, st)
  else
    issueAfterChecks (jsNormalize idRaw) (jsLower (jsTrim (jsOr roleRaw "user"))) st now fresh
      deliveryOk cooldown ttl

/-- `(process.env.ADMIN_EMAILS || "").split(",").map(e => e.trim().toLowerCase()).filter(Boolean)`
(`src/server.js` line 180). -/
def parseAdminEmails (env : String) : List String :=
  ((splitOnChar ',' env.data).map (fun cs => jsLower (jsTrim ⟨cs⟩))).filter (fun e => !(e == ""))

/-- `POST /auth/admin-send-code` (`src/server.js` lines 170-225): like
`sendCode` but with default role "admin" and an allow-list gate between
the email validation and the cooldown check. -/
def adminSendCode (env idRaw roleRaw : String) (st : Store) (now : Int) (fresh : String)
    (deliveryOk : Bool) (cooldown ttl : Int) : SendResult × Store :=
  if jsNormalize idRaw = "" ∨ validEmail (jsNormalize idRaw) = false then
    (.invalidEmail, st)
  else if parseAdminEmails env ≠ [] ∧ jsNormalize idRaw ∉ parseAdminEmails env then
    (.forbidden, st)
  else
    issueAfterChecks (jsNormalize idRaw) (jsLower (jsTrim (jsOr roleRaw "admin"))) st now fresh
      deliveryOk cooldown ttl

/-- The token field of a `/auth/verify-token` request: absent, a string
that does not decode as a JWT, or a decodable token. -/
inductive TokenInput where
  | missing
  | malformed (raw : String)
  | good (t : Token)

/-- Outcome of a verify-token request (`/auth/verify-token`): the
distinct response bodies. -/
inductive TokenCheck where
  /-- 401 "No token provided" -/
  | noToken
  /-- 200 `{valid: true, email, role}` -/
  | ok (email role : String)
  /-- 401 "Invalid or expired token": the single outcome of the catch
  block, for expired, badly signed and malformed tokens alike. -/
  | invalidGeneric
deriving DecidableEq

/-- `POST /auth/verify-token` (`src/server.js` lines 150-167).  Any
exception from `jwt.verify` (malformed, bad signature, expired) lands in
the one catch block. -/
def verifyToken (inp : TokenInput) (key : String) (nowSec : Int) : TokenCheck :=
  match inp with
  | .missing => .noToken
  | .malformed _ => .invalidGeneric
  | .good t =>
    match tokenValidate t key nowSec with
    | some (e, r) => .ok e r
    | none => .invalidGeneric

/-- Iterated submissions: `submitIter idRaw codeRaw times secret st k` is
the store after `k` verify-code calls with the same identifier and code,
the `i`-th call made at time `times i`. -/
def submitIter (idRaw codeRaw : String) (times : Nat → Int) (secret : String) (st : Store) :
    Nat → Store
  | 0 => st
  | k + 1 =>
    (verifyCode idRaw codeRaw (submitIter idRaw codeRaw times secret st k) (times k) secret).2

/-! ### Association-list lemmas for the JS `Map` model -/

theorem lookup_mapSet_self (k : String) (v : Challenge) :
    ∀ st : Store, List.lookup k (mapSet k v st) = some v := by
  intro st
  induction st with
  | nil => simp [mapSet, List.lookup]
  | cons p rest ih =>
    obtain ⟨k', v'⟩ := p
    by_cases h : k' = k
    · subst h; simp [mapSet, List.lookup]
    · have hb : (k == k') = false := beq_eq_false_iff_ne.mpr (Ne.symm h)
      have hb' : (k' == k) = false := beq_eq_false_iff_ne.mpr h
      simp [mapSet, hb', List.lookup, hb, ih]

theorem lookup_mapSet_ne (k₁ k₂ : String) (v : Challenge) (h : k₁ ≠ k₂) :
    ∀ st : Store, List.lookup k₁ (mapSet k₂ v st) = List.lookup k₁ st := by
  intro st
  have hb : (k₁ == k₂) = false := beq_eq_false_iff_ne.mpr h
  induction st with
  | nil => simp [mapSet, List.lookup, hb]
  | cons p rest ih =>
    obtain ⟨k', v'⟩ := p
    by_cases h' : k' = k₂
    · subst h'; simp [mapSet, List.lookup, hb]
    · have hb' : (k' == k₂) = false := beq_eq_false_iff_ne.mpr h'
      by_cases h₂ : k₁ = k'
      · subst h₂; simp [mapSet, hb', List.lookup]
      · have hb₂ : (k₁ == k') = false := beq_eq_false_iff_ne.mpr h₂
        simp [mapSet, hb', List.lookup, hb₂, ih]

theorem lookup_mapDelete_self (k : String) :
    ∀ st : Store, List.lookup k (mapDelete k st) = none := by
  intro st
  induction st with
  | nil => simp [mapDelete, List.lookup]
  | cons p rest ih =>
    obtain ⟨k', v'⟩ := p
    by_cases h : k' = k
    · subst h; simpa [mapDelete, List.filter, List.lookup] using ih
    · have hb : (k == k') = false := beq_eq_false_iff_ne.mpr (Ne.symm h)
      have hb' : (k' == k) = false := beq_eq_false_iff_ne.mpr h
      simpa [mapDelete, List.filter, hb', List.lookup, hb] using ih

theorem mem_storeKeys_mapSet (x k : String) (v : Challenge) :
    ∀ st : Store, x ∈ storeKeys (mapSet k v st) → x = k ∨ x ∈ storeKeys st := by
  intro st
  induction st with
  | nil => simp [mapSet, storeKeys]
  | cons p rest ih =>
    obtain ⟨k', v'⟩ := p
    by_cases h : k' = k
    · subst h
      simp only [mapSet, beq_self_eq_true, if_true, storeKeys, List.map_cons, List.mem_cons]
      tauto
    · have hb' : (k' == k) = false := beq_eq_false_iff_ne.mpr h
      intro hx
      simp only [mapSet, hb', Bool.false_eq_true, if_false, storeKeys, List.map_cons,
        List.mem_cons] at hx ⊢
      rcases hx with hx | hx
      · tauto
      · rcases ih hx with hx' | hx' <;> tauto

theorem storeWF_mapSet (k : String) (v : Challenge) :
    ∀ st : Store, storeWF st → storeWF (mapSet k v st) := by
  intro st
  induction st with
  | nil => intro _; simp [mapSet, storeWF, storeKeys]
  | cons p rest ih =>
    obtain ⟨k', v'⟩ := p
    intro hwf
    simp only [storeWF, storeKeys, List.map_cons, List.nodup_cons] at hwf
    by_cases h : k' = k
    · subst h
      simp only [mapSet, beq_self_eq_true, if_true, storeWF, storeKeys, List.map_cons,
        List.nodup_cons]
      exact hwf
    · have hb' : (k' == k) = false := beq_eq_false_iff_ne.mpr h
      simp only [mapSet, hb', Bool.false_eq_true, if_false, storeWF, storeKeys,
        List.map_cons, List.nodup_cons]
      refine ⟨fun hmem => ?_, ih hwf.2⟩
      rcases mem_storeKeys_mapSet k' k v rest hmem with h' | h'
      · exact h h'
      · exact hwf.1 h'

/-! ### Branch lemmas for `verifyCode` -/

theorem verifyCode_none (idRaw codeRaw secret : String) (st : Store) (now : Int)
    (hl : List.lookup (jsNormalize idRaw) st = none) :
    verifyCode idRaw codeRaw st now secret = (.noPending, st) := by
  simp [verifyCode, hl]

theorem verifyCode_expired (idRaw codeRaw secret : String) (st : Store) (now : Int)
    (ch : Challenge) (hl : List.lookup (jsNormalize idRaw) st = some ch)
    (hexp : ch.expiresAt < now) :
    verifyCode idRaw codeRaw st now secret = (.expired, mapDelete (jsNormalize idRaw) st) := by
  simp [verifyCode, hl, hexp]

theorem verifyCode_tooMany (idRaw codeRaw secret : String) (st : Store) (now : Int)
    (ch : Challenge) (hl : List.lookup (jsNormalize idRaw) st = some ch)
    (hexp : ¬ ch.expiresAt < now) (hatt : 6 ≤ ch.attempts) :
    verifyCode idRaw codeRaw st now secret = (.tooMany, mapDelete (jsNormalize idRaw) st) := by
  simp [verifyCode, hl, hexp, show 6 < ch.attempts + 1 by omega]

theorem verifyCode_wrong (idRaw codeRaw secret : String) (st : Store) (now : Int)
    (ch : Challenge) (hl : List.lookup (jsNormalize idRaw) st = some ch)
    (hexp : ¬ ch.expiresAt < now) (hatt : ch.attempts < 6) (hw : ch.code ≠ jsTrim codeRaw) :
    verifyCode idRaw codeRaw st now secret =
      (.invalidCode, mapSet (jsNormalize idRaw) { ch with attempts := ch.attempts + 1 } st) := by
  simp [verifyCode, hl, hexp, show ¬ 6 < ch.attempts + 1 by omega, hw]

theorem verifyCode_correct (idRaw codeRaw secret : String) (st : Store) (now : Int)
    (ch : Challenge) (hl : List.lookup (jsNormalize idRaw) st = some ch)
    (hexp : ¬ ch.expiresAt < now) (hatt : ch.attempts < 6) (hc : ch.code = jsTrim codeRaw) :
    verifyCode idRaw codeRaw st now secret =
      (.success (mint (jsNormalize idRaw) (jsOr ch.role "user") (Int.ediv now 1000) secret)
          (jsOr ch.role "user") (jsNormalize idRaw),
        mapDelete (jsNormalize idRaw) st) := by
  simp [verifyCode, hl, hexp, show ¬ 6 < ch.attempts + 1 by omega, hc]

/-- After `k ≤ 6` wrong submissions against a fresh challenge, the
challenge is still stored with `attempts = k`. -/
theorem submitIter_wrong_lookup (idRaw w secret : String) (times : Nat → Int) (st : Store)
    (ch : Challenge) (hl : List.lookup (jsNormalize idRaw) st = some ch)
    (h0 : ch.attempts = 0) (hw : ch.code ≠ jsTrim w)
    (hexp : ∀ i, i < 7 → times i ≤ ch.expiresAt) :
    ∀ k, k ≤ 6 →
      List.lookup (jsNormalize idRaw) (submitIter idRaw w times secret st k) =
        some { ch with attempts := k } := by
  intro k
  induction k with
  | zero =>
    intro _
    have hch : { ch with attempts := 0 } = ch := by
      obtain ⟨c, r, e, l, a⟩ := ch
      simp only at h0
      simp [h0]
    rw [submitIter, hch]; exact hl
  | succ k ih =>
    intro hk
    have hcur := ih (by omega)
    rw [submitIter]
    rw [verifyCode_wrong idRaw w secret _ (times k) _ hcur
      (by simpa using not_lt.mpr (hexp k (by omega))) (by show k < 6; omega)
      (by simpa using hw)]
    exact lookup_mapSet_self _ _ _

/-! ### Claim theorems for the verify-code flow -/

/-- C2: for a freshly stored challenge with attempt ceiling 6, each of the
first 6 wrong-code submissions (made before expiry) returns the
invalid-code error and leaves the challenge stored with attempts
incremented by one per call; the 7th submission, with any code, returns
the too-many-attempts error and deletes the challenge. -/
theorem c2_attempt_ceiling (idRaw w secret : String) (times : Nat → Int) (st : Store)
    (ch : Challenge) (hl : List.lookup (jsNormalize idRaw) st = some ch)
    (h0 : ch.attempts = 0) (hw : ch.code ≠ jsTrim w)
    (hexp : ∀ i, i < 7 → times i ≤ ch.expiresAt) :
    (∀ k, k < 6 →
      (verifyCode idRaw w (submitIter idRaw w times secret st k) (times k) secret).1 =
        VerifyResult.invalidCode ∧
      List.lookup (jsNormalize idRaw) (submitIter idRaw w times secret st (k + 1)) =
        some { ch with attempts := k + 1 }) ∧
    (∀ c,
      (verifyCode idRaw c (submitIter idRaw w times secret st 6) (times 6) secret).1 =
        VerifyResult.tooMany ∧
      List.lookup (jsNormalize idRaw)
        ((verifyCode idRaw c (submitIter idRaw w times secret st 6) (times 6) secret).2) =
        none) := by
  have hinv := submitIter_wrong_lookup idRaw w secret times st ch hl h0 hw hexp
  constructor
  · intro k hk
    constructor
    · rw [verifyCode_wrong idRaw w secret _ (times k) _ (hinv k (by omega))
        (by simpa using not_lt.mpr (hexp k (by omega))) (by simpa using hk)
        (by simpa using hw)]
    · have := hinv (k + 1) (by omega)
      rw [submitIter] at this
      exact this
  · intro c
    rw [verifyCode_tooMany idRaw c secret _ (times 6) _ (hinv 6 (by omega))
      (by simpa using not_lt.mpr (hexp 6 (by omega))) (by simp)]
    exact ⟨rfl, lookup_mapDelete_self _ _⟩

/-- C4: submitting any code strictly after `expiresAt` deletes the
challenge and fails with the expiry error; a retry for the same
identifier then fails with the no-pending-challenge error, so the expired
challenge is never resurrected. -/
theorem c4_expiry (idRaw codeRaw secret : String) (st : Store) (now : Int) (ch : Challenge)
    (hl : List.lookup (jsNormalize idRaw) st = some ch)
    (hexp : ch.expiresAt < now) :
    verifyCode idRaw codeRaw st now secret = (.expired, mapDelete (jsNormalize idRaw) st) ∧
    List.lookup (jsNormalize idRaw) (mapDelete (jsNormalize idRaw) st) = none ∧
    ∀ c₂ n₂, verifyCode idRaw c₂ (mapDelete (jsNormalize idRaw) st) n₂ secret =
      (.noPending, mapDelete (jsNormalize idRaw) st) := by
  refine ⟨verifyCode_expired idRaw codeRaw secret st now ch hl hexp,
    lookup_mapDelete_self _ _, fun c₂ n₂ => ?_⟩
  exact verifyCode_none idRaw c₂ secret _ n₂ (lookup_mapDelete_self _ _)

/-- C3 counterexample: the claim promises that a successful submission
returns the role stored in the challenge, but for a challenge whose role
is the empty string (reachable by requesting a code with a
whitespace-only role) the server returns the JS falsy fallback "user"
instead of that stored role "". -/
theorem c3_counterexample :
    (verifyCode "a@b.com" "123456"
        [("a@b.com", ⟨"123456", "", 1000, 0, 0⟩)] 500 "k").1 =
      VerifyResult.success (mint "a@b.com" "user" 0 "k") "user" "a@b.com" ∧
    ("user" : String) ≠ ("" : String) := by
  constructor
  · decide
  · decide

/-- C3 (amended): one-shot consumption: a submit-code call with the exact
stored code, at a time not after `expiresAt` and with attempts below the
ceiling, succeeds — returning a token, the role of the challenge (with an
empty role replaced by "user", the JS falsy fallback), and the
identifier — and deletes the challenge; any later submit-code call for
the same identifier, including a replay of the same code within its TTL,
fails with the no-pending-challenge error. -/
theorem c3_one_shot (idRaw codeRaw secret : String) (st : Store) (now : Int) (ch : Challenge)
    (hl : List.lookup (jsNormalize idRaw) st = some ch)
    (hexp : now ≤ ch.expiresAt) (hatt : ch.attempts < 6) (hc : ch.code = jsTrim codeRaw) :
    verifyCode idRaw codeRaw st now secret =
      (.success (mint (jsNormalize idRaw) (jsOr ch.role "user") (Int.ediv now 1000) secret)
          (jsOr ch.role "user") (jsNormalize idRaw),
        mapDelete (jsNormalize idRaw) st) ∧
    List.lookup (jsNormalize idRaw) (mapDelete (jsNormalize idRaw) st) = none ∧
    ∀ c₂ n₂, verifyCode idRaw c₂ (mapDelete (jsNormalize idRaw) st) n₂ secret =
      (.noPending, mapDelete (jsNormalize idRaw) st) := by
  refine ⟨verifyCode_correct idRaw codeRaw secret st now ch hl (not_lt.mpr hexp) hatt hc,
    lookup_mapDelete_self _ _, fun c₂ n₂ => ?_⟩
  exact verifyCode_none idRaw c₂ secret _ n₂ (lookup_mapDelete_self _ _)

/-- C10: the submit-code flow performs no email-syntax validation: any
raw identifier, malformed or not, is only trimmed and lower-cased and
looked up; if no challenge is stored under the normalized key the call
returns the no-pending-challenge error and leaves the store unchanged. -/
theorem c10_no_syntax_check (idRaw codeRaw secret : String) (st : Store) (now : Int)
    (hl : List.lookup (jsNormalize idRaw) st = none) :
    verifyCode idRaw codeRaw st now secret = (.noPending, st) := by
  simp [verifyCode, hl]

/-! ### Branch lemmas for the send-code flows -/

theorem sendCode_valid (idRaw roleRaw fresh : String) (st : Store) (now cooldown ttl : Int)
    (ok : Bool) (hv : validEmail (jsNormalize idRaw) = true) :
    sendCode idRaw roleRaw st now fresh ok cooldown ttl =
      issueAfterChecks (jsNormalize idRaw) (jsLower (jsTrim (jsOr roleRaw "user"))) st now
        fresh ok cooldown ttl := by
  have hne : ¬ (jsNormalize idRaw = "" ∨ validEmail (jsNormalize idRaw) = false) := by
    rintro (h | h)
    · rw [h] at hv; exact absurd hv (by decide)
    · rw [hv] at h; exact absurd h (by decide)
  simp [sendCode, hne]

theorem issueAfterChecks_commit (identifier role fresh : String) (st : Store)
    (now cooldown ttl : Int) (ok : Bool)
    (hncd : ∀ prev, List.lookup identifier st = some prev →
      cooldown * 1000 ≤ now - prev.lastSentAt) :
    issueAfterChecks identifier role st now fresh ok cooldown ttl =
      (if ok then .sent else .deliveryError,
        mapSet identifier ⟨fresh, role, now + ttl * 1000, now, 0⟩ st) := by
  unfold issueAfterChecks
  cases hlk : List.lookup identifier st with
  | none => cases ok <;> simp [commitAndSend]
  | some prev =>
    have := hncd prev hlk
    cases ok <;>
      simp [show ¬ now - prev.lastSentAt < cooldown * 1000 by omega, commitAndSend]

/-! ### Claim theorems for the send-code flows -/

/-- C1 counterexample: a send-code request whose delivery fails does not
leave the store as it was: starting from an empty store, the failed
request stores a fresh challenge for the identifier (so a cooldown is in
force for a code the user never received). -/
theorem c1_counterexample :
    (sendCode "a@b.com" "user" ([] : Store) 0 "123456" false 60 600).1 =
      SendResult.deliveryError ∧
    List.lookup "a@b.com" (sendCode "a@b.com" "user" ([] : Store) 0 "123456" false 60 600).2 ≠
      List.lookup "a@b.com" ([] : Store) := by
  constructor
  · decide
  · decide

/-- C1 (amended): in the request-code flow, the challenge is stored
before the delivery attempt, so when the notification send fails the flow
reports a delivery error while the store already holds the fresh
challenge for the identifier (with `lastSentAt = now`), and a cooldown is
therefore imposed even though the code was never delivered. -/
theorem c1_delivery_failure_commits (idRaw roleRaw fresh : String) (st : Store)
    (now cooldown ttl : Int)
    (hv : validEmail (jsNormalize idRaw) = true)
    (hncd : ∀ prev, List.lookup (jsNormalize idRaw) st = some prev →
      cooldown * 1000 ≤ now - prev.lastSentAt) :
    sendCode idRaw roleRaw st now fresh false cooldown ttl =
      (.deliveryError, mapSet (jsNormalize idRaw)
        ⟨fresh, jsLower (jsTrim (jsOr roleRaw "user")), now + ttl * 1000, now, 0⟩ st) ∧
    List.lookup (jsNormalize idRaw)
        (sendCode idRaw roleRaw st now fresh false cooldown ttl).2 =
      some ⟨fresh, jsLower (jsTrim (jsOr roleRaw "user")), now + ttl * 1000, now, 0⟩ := by
  have h := sendCode_valid idRaw roleRaw fresh st now cooldown ttl false hv
  rw [h, issueAfterChecks_commit _ _ _ _ _ _ _ _ hncd]
  exact ⟨rfl, lookup_mapSet_self _ _ _⟩

/-- C5: for a valid identifier with a stored challenge, a request within
the cooldown window is rejected with a throttling error whose reported
wait is the ceiling of the remaining milliseconds divided by 1000; the
wait is positive and at most the configured cooldown in seconds, and the
store is left unchanged.  (`0 ≤ now - lastSentAt` encodes the monotonic
clock of the spec: `lastSentAt` was set at an earlier `Date.now()`.) -/
theorem c5_cooldown_throttle (idRaw roleRaw fresh : String) (st : Store)
    (now cooldown ttl : Int) (ok : Bool) (prev : Challenge)
    (hv : validEmail (jsNormalize idRaw) = true)
    (hl : List.lookup (jsNormalize idRaw) st = some prev)
    (hmono : 0 ≤ now - prev.lastSentAt)
    (hcd : now - prev.lastSentAt < cooldown * 1000) :
    sendCode idRaw roleRaw st now fresh ok cooldown ttl =
      (.throttled (ceilDiv (cooldown * 1000 - (now - prev.lastSentAt)) 1000), st) ∧
    0 < ceilDiv (cooldown * 1000 - (now - prev.lastSentAt)) 1000 ∧
    ceilDiv (cooldown * 1000 - (now - prev.lastSentAt)) 1000 ≤ cooldown := by
  refine ⟨?_, ?_, ?_⟩
  · rw [sendCode_valid idRaw roleRaw fresh st now cooldown ttl ok hv]
    simp [issueAfterChecks, hl, hcd]
  · unfold ceilDiv; omega
  · unfold ceilDiv; omega

/-- C6: the store keeps at most one challenge per identifier, and every
successful (valid, non-throttled, delivered) request-code call overwrites
any prior entry wholesale with a fresh challenge carrying the fresh code,
the newly requested role, `expiresAt = now + ttl`, `lastSentAt = now` and
`attempts = 0`. -/
theorem c6_single_challenge_overwrite (idRaw roleRaw fresh : String) (st : Store)
    (now cooldown ttl : Int)
    (hv : validEmail (jsNormalize idRaw) = true)
    (hncd : ∀ prev, List.lookup (jsNormalize idRaw) st = some prev →
      cooldown * 1000 ≤ now - prev.lastSentAt) :
    sendCode idRaw roleRaw st now fresh true cooldown ttl =
      (.sent, mapSet (jsNormalize idRaw)
        ⟨fresh, jsLower (jsTrim (jsOr roleRaw "user")), now + ttl * 1000, now, 0⟩ st) ∧
    List.lookup (jsNormalize idRaw)
        (sendCode idRaw roleRaw st now fresh true cooldown ttl).2 =
      some ⟨fresh, jsLower (jsTrim (jsOr roleRaw "user")), now + ttl * 1000, now, 0⟩ ∧
    (storeWF st →
      storeWF (sendCode idRaw roleRaw st now fresh true cooldown ttl).2) := by
  have h := sendCode_valid idRaw roleRaw fresh st now cooldown ttl true hv
  rw [h, issueAfterChecks_commit _ _ _ _ _ _ _ _ hncd]
  exact ⟨rfl, lookup_mapSet_self _ _ _, storeWF_mapSet _ _ _⟩

/-- The nested JS string defaults collapse: a role that already fell back
to "admin" is nonempty, so the "user" fallback never fires on it. -/
theorem jsOr_admin_user (r : String) : jsOr (jsOr r "admin") "user" = jsOr r "admin" := by
  unfold jsOr
  by_cases h : r = "" <;> simp [h]

/-- C9: with a non-empty configured allow-list, an admin code request for
a valid identifier not on the list fails with the forbidden error
(distinct from the validation error) and leaves the store untouched; a
request for an identifier on the list, or any request when the allow-list
is empty, proceeds exactly like the ordinary request-code flow (with the
role defaulting to "admin"). -/
theorem c9_admin_allowlist (env idRaw roleRaw fresh : String) (st : Store)
    (now cooldown ttl : Int) (ok : Bool) :
    (parseAdminEmails env ≠ [] → validEmail (jsNormalize idRaw) = true →
      jsNormalize idRaw ∉ parseAdminEmails env →
      adminSendCode env idRaw roleRaw st now fresh ok cooldown ttl = (.forbidden, st) ∧
      SendResult.forbidden ≠ SendResult.invalidEmail) ∧
    ((parseAdminEmails env = [] ∨ jsNormalize idRaw ∈ parseAdminEmails env) →
      adminSendCode env idRaw roleRaw st now fresh ok cooldown ttl =
        sendCode idRaw (jsOr roleRaw "admin") st now fresh ok cooldown ttl) := by
  constructor
  · intro hne hv hnm
    have hval : ¬ (jsNormalize idRaw = "" ∨ validEmail (jsNormalize idRaw) = false) := by
      rintro (h | h)
      · rw [h] at hv; exact absurd hv (by decide)
      · rw [hv] at h; exact absurd h (by decide)
    refine ⟨?_, by simp⟩
    simp [adminSendCode, hval, hne, hnm]
  · intro hallow
    have hcond : ¬ (parseAdminEmails env ≠ [] ∧ jsNormalize idRaw ∉ parseAdminEmails env) := by
      rcases hallow with h | h
      · simp [h]
      · simp [h]
    by_cases hval : jsNormalize idRaw = "" ∨ validEmail (jsNormalize idRaw) = false
    · simp [adminSendCode, sendCode, hval]
    · simp [adminSendCode, sendCode, hval, hcond, jsOr_admin_user]

/-! ### Claim theorems for the token service -/

/-- C7: token round trip: validating `mint(id, role)` within the 24-hour
validity window returns the embedded claims `{identifier: id, role}`;
validating the same token once the window has elapsed returns Invalid
(`none`). -/
theorem c7_token_round_trip (id role key : String) (iat now : Int) :
    (iat ≤ now → now < iat + 86400 →
      tokenValidate (mint id role iat key) key now = some (id, role)) ∧
    (iat + 86400 ≤ now → tokenValidate (mint id role iat key) key now = none) := by
  constructor
  · intro _ h2
    simp [tokenValidate, mint, h2]
  · intro h
    simp [tokenValidate, mint, show ¬ now < iat + 86400 by omega]

/-- C8: every presented token that is malformed, carries a signature made
with a different key, or is past its validity window resolves to the one
generic invalid-or-expired outcome; the failure mode is not
distinguished in the response. -/
theorem c8_generic_invalid (inp : TokenInput) (key : String) (now : Int)
    (h : (∃ s, inp = TokenInput.malformed s) ∨
      ∃ t, inp = TokenInput.good t ∧ (t.key ≠ key ∨ t.iat + 86400 ≤ now)) :
    verifyToken inp key now = TokenCheck.invalidGeneric := by
  rcases h with ⟨s, rfl⟩ | ⟨t, rfl, ht⟩
  · rfl
  · have hval : tokenValidate t key now = none := by
      unfold tokenValidate
      rcases ht with h1 | h2
      · simp [h1]
      · simp [show ¬ now < t.iat + 86400 by omega]
    simp [verifyToken, hval]

/-! ### Concrete witnesses -/

theorem c1_witness :
    sendCode "a@b.com" "" ([] : Store) 0 "123456" false 60 600 =
      (SendResult.deliveryError, mapSet (jsNormalize "a@b.com")
        ⟨"123456", jsLower (jsTrim (jsOr "" "user")), 0 + 600 * 1000, 0, 0⟩ []) ∧
    List.lookup (jsNormalize "a@b.com")
        (sendCode "a@b.com" "" ([] : Store) 0 "123456" false 60 600).2 =
      some ⟨"123456", jsLower (jsTrim (jsOr "" "user")), 0 + 600 * 1000, 0, 0⟩ :=
  c1_delivery_failure_commits "a@b.com" "" "123456" [] 0 60 600 (by decide)
    (fun _ hp => Option.noConfusion hp)

theorem c2_witness :
    (verifyCode "a@b.com" "000000"
        (submitIter "a@b.com" "000000" (fun _ => 5) "s"
          [("a@b.com", ⟨"123456", "user", 1000000, 0, 0⟩)] 0) 5 "s").1 =
      VerifyResult.invalidCode ∧
    (verifyCode "a@b.com" "123456"
        (submitIter "a@b.com" "000000" (fun _ => 5) "s"
          [("a@b.com", ⟨"123456", "user", 1000000, 0, 0⟩)] 6) 5 "s").1 =
      VerifyResult.tooMany := by
  have h := c2_attempt_ceiling "a@b.com" "000000" "s" (fun _ => 5)
    [("a@b.com", ⟨"123456", "user", 1000000, 0, 0⟩)] ⟨"123456", "user", 1000000, 0, 0⟩
    (by decide) (by decide) (by decide) (fun i _ => by show (5 : Int) ≤ 1000000; decide)
  exact ⟨(h.1 0 (by decide)).1, (h.2 "123456").1⟩

theorem c3_witness :
    verifyCode "a@b.com" " 123456 "
        [("a@b.com", ⟨"123456", "admin", 1000, 0, 0⟩)] 500 "k" =
      (VerifyResult.success (mint "a@b.com" "admin" 0 "k") "admin" "a@b.com",
        mapDelete (jsNormalize "a@b.com") [("a@b.com", ⟨"123456", "admin", 1000, 0, 0⟩)]) ∧
    verifyCode "a@b.com" "123456"
        (mapDelete (jsNormalize "a@b.com") [("a@b.com", ⟨"123456", "admin", 1000, 0, 0⟩)])
        600 "k" =
      (VerifyResult.noPending,
        mapDelete (jsNormalize "a@b.com") [("a@b.com", ⟨"123456", "admin", 1000, 0, 0⟩)]) := by
  have h := c3_one_shot "a@b.com" " 123456 " "k"
    [("a@b.com", ⟨"123456", "admin", 1000, 0, 0⟩)] 500 ⟨"123456", "admin", 1000, 0, 0⟩
    (by decide) (by decide) (by decide) (by decide)
  refine ⟨?_, h.2.2 "123456" 600⟩
  rw [h.1]
  decide

theorem c4_witness :
    verifyCode "a@b.com" "111111"
        [("a@b.com", ⟨"111111", "user", 100, 50, 2⟩)] 200 "k" =
      (VerifyResult.expired,
        mapDelete (jsNormalize "a@b.com") [("a@b.com", ⟨"111111", "user", 100, 50, 2⟩)]) ∧
    verifyCode "a@b.com" "111111"
        (mapDelete (jsNormalize "a@b.com") [("a@b.com", ⟨"111111", "user", 100, 50, 2⟩)])
        50 "k" =
      (VerifyResult.noPending,
        mapDelete (jsNormalize "a@b.com") [("a@b.com", ⟨"111111", "user", 100, 50, 2⟩)]) := by
  have h := c4_expiry "a@b.com" "111111" "k"
    [("a@b.com", ⟨"111111", "user", 100, 50, 2⟩)] 200 ⟨"111111", "user", 100, 50, 2⟩
    (by decide) (by decide)
  exact ⟨h.1, h.2.2 "111111" 50⟩

theorem c5_witness :
    sendCode "a@b.com" "" [("a@b.com", ⟨"111111", "user", 600000, 0, 0⟩)] 30500 "222222"
        true 60 600 =
      (SendResult.throttled 30, [("a@b.com", ⟨"111111", "user", 600000, 0, 0⟩)]) ∧
    (0 : Int) < 30 ∧ (30 : Int) ≤ 60 := by
  have h := c5_cooldown_throttle "a@b.com" "" "222222"
    [("a@b.com", ⟨"111111", "user", 600000, 0, 0⟩)] 30500 60 600 true
    ⟨"111111", "user", 600000, 0, 0⟩ (by decide) (by decide) (by decide) (by decide)
  refine ⟨?_, by decide, by decide⟩
  rw [h.1]
  decide

theorem c6_witness :
    sendCode "A@B.com " "ADmin" [("a@b.com", ⟨"111111", "user", 600000, 0, 0⟩)] 60000
        "333333" true 60 600 =
      (SendResult.sent, [("a@b.com", ⟨"333333", "admin", 660000, 60000, 0⟩)]) ∧
    storeWF (sendCode "A@B.com " "ADmin" [("a@b.com", ⟨"111111", "user", 600000, 0, 0⟩)]
        60000 "333333" true 60 600).2 := by
  have h := c6_single_challenge_overwrite "A@B.com " "ADmin" "333333"
    [("a@b.com", ⟨"111111", "user", 600000, 0, 0⟩)] 60000 60 600 (by decide)
    (fun prev hp => by
      rw [show List.lookup (jsNormalize "A@B.com ")
          ([("a@b.com", ⟨"111111", "user", 600000, 0, 0⟩)] : Store) =
          some ⟨"111111", "user", 600000, 0, 0⟩ from by decide] at hp
      injection hp with h'
      exact h' ▸ (by decide :
        (60 : Int) * 1000 ≤ 60000 - (⟨"111111", "user", 600000, 0, 0⟩ : Challenge).lastSentAt))
  refine ⟨?_, h.2.2 (by unfold storeWF; decide)⟩
  rw [h.1]
  decide

theorem c7_witness :
    tokenValidate (mint "a@b.com" "user" 1000 "k") "k" 5000 = some ("a@b.com", "user") ∧
    tokenValidate (mint "a@b.com" "user" 1000 "k") "k" 90000 = none :=
  ⟨(c7_token_round_trip "a@b.com" "user" "k" 1000 5000).1 (by decide) (by decide),
   (c7_token_round_trip "a@b.com" "user" "k" 1000 90000).2 (by decide)⟩

theorem c8_witness :
    verifyToken (TokenInput.malformed "garbage") "k" 0 = TokenCheck.invalidGeneric ∧
    verifyToken (TokenInput.good ⟨"a@b.com", "user", 0, "other"⟩) "k" 10 =
      TokenCheck.invalidGeneric ∧
    verifyToken (TokenInput.good ⟨"a@b.com", "user", 0, "k"⟩) "k" 86400 =
      TokenCheck.invalidGeneric :=
  ⟨c8_generic_invalid (TokenInput.malformed "garbage") "k" 0 (Or.inl ⟨"garbage", rfl⟩),
   c8_generic_invalid (TokenInput.good ⟨"a@b.com", "user", 0, "other"⟩) "k" 10
     (Or.inr ⟨⟨"a@b.com", "user", 0, "other"⟩, rfl, Or.inl (by decide)⟩),
   c8_generic_invalid (TokenInput.good ⟨"a@b.com", "user", 0, "k"⟩) "k" 86400
     (Or.inr ⟨⟨"a@b.com", "user", 0, "k"⟩, rfl, Or.inr (by decide)⟩)⟩

theorem c9_witness :
    adminSendCode "x@y.com" "z@y.com" "" [] 0 "444444" true 60 600 =
      (SendResult.forbidden, []) ∧
    adminSendCode "x@y.com" "x@y.com" "" [] 0 "444444" true 60 600 =
      sendCode "x@y.com" (jsOr "" "admin") [] 0 "444444" true 60 600 :=
  ⟨((c9_admin_allowlist "x@y.com" "z@y.com" "" "444444" [] 0 60 600 true).1
      (by decide) (by decide) (by decide)).1,
   (c9_admin_allowlist "x@y.com" "x@y.com" "" "444444" [] 0 60 600 true).2
      (Or.inr (by decide))⟩

theorem c10_witness :
    verifyCode "not an email" "123" [("a@b.com", ⟨"1", "user", 10, 0, 0⟩)] 5 "k" =
      (VerifyResult.noPending, [("a@b.com", ⟨"1", "user", 10, 0, 0⟩)]) :=
  c10_no_syntax_check "not an email" "123" "k" [("a@b.com", ⟨"1", "user", 10, 0, 0⟩)] 5
    (by decide)

example : validEmail "a@b.com" = true := by decide
example : validEmail "a@b" = false := by decide
example : validEmail "" = false := by decide
example : validEmail "a b@c.de" = false := by decide
example : validEmail "a@b@c.de" = false := by decide
example : validEmail "x@.a" = false := by decide
example : jsNormalize " A@B.Com " = "a@b.com" := by decide
example : ceilDiv 1 1000 = 1 := by decide
example : ceilDiv 1000 1000 = 1 := by decide
example : ceilDiv 1001 1000 = 2 := by decide
example : parseAdminEmails "" = [] := by decide
example : parseAdminEmails " X@y.com , " = ["x@y.com"] := by decide
